import Mathlib

/-!
Shallow embedding of the travel-journal note-and-media lifecycle
(`app/services/notes.server.ts` and the route modules that call it).

The relational store is modelled as lists of rows kept in insertion
order; a query without an ORDER BY clause returns rows in that order,
and an ORDER BY clause is a stable sort.  Timestamps are naturals
supplied by the caller (`now`), fresh primary keys are supplied
explicitly (`newNoteId`) or drawn from a counter (`nextMediaId`), and
SQL statements that can fail at runtime are driven by an explicit
oracle recording which insert succeeds.
-/

namespace Travel

/-- Moderation status of a note (enum `note_status`). -/
inductive NoteStatus
  | pending
  | approved
  | rejected
deriving DecidableEq

/-- Kind of an attachment (enum `media_type`). -/
inductive MediaType
  | image
  | video
deriving DecidableEq

/-- Role of a mobile/admin principal (enums `user_role` / `admin_role`). -/
inductive Role
  | user
  | auditor
  | admin
deriving DecidableEq

/-- A row of the `users` table (the columns the embedded operations read). -/
structure UserRow where
  id : String
  username : String
  nickname : String
  avatarUrl : Option String
  role : Role
deriving DecidableEq

/-- A row of the `travel_notes` table. -/
structure NoteRow where
  id : String
  userId : String
  title : String
  content : String
  location : Option String
  status : NoteStatus
  rejectionReason : Option String
  isDeleted : Bool
  createdAt : Nat
  updatedAt : Nat
deriving DecidableEq

/-- A row of the `note_media` table (`id` is the serial primary key). -/
structure MediaRow where
  id : Nat
  noteId : String
  mediaType : MediaType
  url : String
  order : Nat
  createdAt : Nat
deriving DecidableEq

/-- The database: rows in insertion order plus the serial counter for
`note_media.id`. -/
structure DB where
  users : List UserRow
  travelNotes : List NoteRow
  noteMedia : List MediaRow
  nextMediaId : Nat
deriving DecidableEq

/-- Insert an element into a list sorted by `le`, before the first
element it is `le`-below; used to model SQL ORDER BY as a stable sort. -/
def insertSorted (le : α → α → Bool) (a : α) : List α → List α
  | [] => [a]
  | b :: bs => if le a b then a :: b :: bs else b :: insertSorted le a bs

/-- Stable insertion sort modelling SQL ORDER BY. -/
def sortBy (le : α → α → Bool) : List α → List α
  | [] => []
  | a :: as => insertSorted le a (sortBy le as)

/-- Comparison for `orderBy: desc(travelNotes.createdAt)`. -/
def byCreatedAtDesc (a b : NoteRow) : Bool :=
  b.createdAt ≤ a.createdAt

/-- Comparison for `orderBy: asc(noteMedia.order)`. -/
def byOrderAsc (a b : MediaRow) : Bool :=
  a.order ≤ b.order

/-- The media rows attached to a note, in insertion order (what the
relational query `with: { media: true }` yields without an ORDER BY). -/
def DB.mediaOf (db : DB) (noteId : String) : List MediaRow :=
  db.noteMedia.filter (fun m => m.noteId = noteId)

/-- Author columns selected by `with: { user: { columns: ... } }`. -/
structure UserPublic where
  id : String
  nickname : String
  avatarUrl : Option String
deriving DecidableEq

/-- Resolve the `user` relation of a note to its public columns. -/
def DB.userPublic (db : DB) (userId : String) : Option UserPublic :=
  (db.users.find? (fun u => u.id = userId)).map
    (fun u => { id := u.id, nickname := u.nickname, avatarUrl := u.avatarUrl })

/-- A note row eagerly loaded with its media and author, the shape
returned by `getUserNotes` / `getNoteById` / `getPublishedNotes`. -/
structure NoteWithMedia where
  note : NoteRow
  media : List MediaRow
  user : Option UserPublic
deriving DecidableEq

/-- Attach the eager-loaded relations to a note row. -/
def DB.view (db : DB) (n : NoteRow) : NoteWithMedia :=
  { note := n, media := db.mediaOf n.id, user := db.userPublic n.userId }

/-- `getUserNotes(userId)`: every note row with that `userId` (no
`isDeleted` filter in the query), media and author eager-loaded,
ordered by `createdAt` descending. -/
def getUserNotes (db : DB) (userId : String) : List NoteWithMedia :=
  (sortBy byCreatedAtDesc (db.travelNotes.filter (fun n => n.userId = userId))).map db.view

/-- `getNoteById(id)`: first note row with that id, with media (in
insertion order) and author, or `none`. -/
def getNoteById (db : DB) (id : String) : Option NoteWithMedia :=
  (db.travelNotes.find? (fun n => n.id = id)).map db.view

/-- One entry of the `media` argument of `createNote` / `updateNote`. -/
structure MediaInput where
  mediaType : MediaType
  url : String
  order : Option Nat
deriving DecidableEq

/-- The argument object of `createNote` (it has no status field: the
caller cannot supply a status). -/
structure CreateNoteInput where
  userId : String
  title : String
  content : String
  location : String := ""
  media : List MediaInput := []
deriving DecidableEq

/-- Which of the SQL inserts issued by `createNote` succeed at runtime. -/
structure InsertOracle where
  noteInsertOk : Bool
  mediaInsertOk : Bool
deriving DecidableEq

/-- The rows built by `media.map((m, index) => ({noteId, mediaType:
m.type, url: m.url, order: m.order ?? index}))`, with serial ids
starting at `baseId`. -/
def mediaRowsFor (noteId : String) (baseId : Nat) (now : Nat)
    (media : List MediaInput) : List MediaRow :=
  media.enum.map (fun p =>
    { id := baseId + p.1, noteId := noteId, mediaType := p.2.mediaType,
      url := p.2.url, order := p.2.order.getD p.1, createdAt := now })

/-- The note row inserted by `createNote`: the values object carries
`status: "pending"` literally, and `rejectionReason` is left at its
column default (null). -/
def createNoteRow (newNoteId : String) (now : Nat)
    (input : CreateNoteInput) : NoteRow :=
  { id := newNoteId, userId := input.userId, title := input.title,
    content := input.content, location := some input.location,
    status := .pending, rejectionReason := none, isDeleted := false,
    createdAt := now, updatedAt := now }

/-- `createNote`: inserts the note row with `status: "pending"`, then —
as a separate statement, not inside a transaction — inserts the media
rows when the list is non-empty; returns `getNoteById` of the new id.
Any thrown error is caught and `null` is returned, after whatever
already committed. -/
def createNote (db : DB) (newNoteId : String) (now : Nat)
    (input : CreateNoteInput) (oracle : InsertOracle) :
    DB × Option NoteWithMedia :=
  if !oracle.noteInsertOk then (db, none)
  else
    let note : NoteRow := createNoteRow newNoteId now input
    let db1 : DB := { db with travelNotes := db.travelNotes ++ [note] }
    if input.media.length > 0 then
      if !oracle.mediaInsertOk then (db1, none)
      else
        let db2 : DB :=
          { db1 with
            noteMedia := db1.noteMedia ++
              mediaRowsFor newNoteId db1.nextMediaId now input.media,
            nextMediaId := db1.nextMediaId + input.media.length }
        (db2, getNoteById db2 newNoteId)
    else (db1, getNoteById db1 newNoteId)

/-- The argument object of `updateNote` (`location?: string` may be
absent, modelled as `none`). -/
structure UpdateNoteInput where
  id : String
  userId : String
  title : String
  content : String
  location : Option String := none
  media : List MediaInput := []
deriving DecidableEq

/-- Result shape of `updateNote`: `{ error }` or `{ note }`. -/
inductive UpdateResult
  | err (code : String)
  | ok (note : Option NoteWithMedia)
deriving DecidableEq

/-- The value stored by `location: location || existingNote.location`
(both `undefined` and the empty string are falsy in JavaScript). -/
def updateLocationValue (input : Option String) (existing : Option String) :
    Option String :=
  match input with
  | some s => if s = "" then existing else some s
  | none => existing

/-- The per-row effect of the UPDATE statement issued by `updateNote`
(`rejectionReason` is not in the SET list, so it is left unchanged). -/
def updateNoteRow (input : UpdateNoteInput) (newLocation : Option String)
    (now : Nat) (n : NoteRow) : NoteRow :=
  if n.id = input.id then
    { n with title := input.title, content := input.content,
             location := newLocation, status := .pending, updatedAt := now }
  else n

/-- The media statements of `updateNote`: delete every media row of the
note, then re-insert the supplied list when it is non-empty. -/
def updateNoteMediaStep (db : DB) (noteId : String) (now : Nat)
    (media : List MediaInput) : DB :=
  let db2 : DB :=
    { db with noteMedia := db.noteMedia.filter (fun m => !(m.noteId = noteId)) }
  if media.length > 0 then
    { db2 with
      noteMedia := db2.noteMedia ++ mediaRowsFor noteId db2.nextMediaId now media,
      nextMediaId := db2.nextMediaId + media.length }
  else db2

/-- `updateNote`: ownership check via `find?` on id and userId, then an
UPDATE keyed on id alone, then delete-all-media-and-reinsert, then
`getNoteById`. -/
def updateNote (db : DB) (now : Nat) (input : UpdateNoteInput) :
    DB × UpdateResult :=
  match db.travelNotes.find? (fun n => n.id = input.id && n.userId = input.userId) with
  | none => (db, .err "NOTE_NOT_FOUND")
  | some existing =>
    let newLocation := updateLocationValue input.location existing.location
    let db1 : DB :=
      { db with travelNotes :=
          db.travelNotes.map (updateNoteRow input newLocation now) }
    let db3 : DB := updateNoteMediaStep db1 input.id now input.media
    (db3, .ok (getNoteById db3 input.id))

/-- Result shape of the mutations that return `{ success: true }` or an
error object. -/
inductive OpResult
  | success
  | err (code : String)
deriving DecidableEq

/-- `deleteNote(id, userId)`: ownership check, then an UPDATE setting
`isDeleted: true` keyed on id alone. -/
def deleteNote (db : DB) (id userId : String) : DB × OpResult :=
  match db.travelNotes.find? (fun n => n.id = id && n.userId = userId) with
  | none => (db, .err "NOTE_NOT_FOUND")
  | some _ =>
    let upd := fun (n : NoteRow) =>
      if n.id = id then { n with isDeleted := true } else n
    ({ db with travelNotes := db.travelNotes.map upd }, .success)

/-- `getPublishedNotes({limit, offset})`: status approved and not
deleted, newest first, OFFSET then LIMIT, relations eager-loaded. -/
def getPublishedNotes (db : DB) (limit : Nat := 10) (offset : Nat := 0) :
    List NoteWithMedia :=
  (((sortBy byCreatedAtDesc
      (db.travelNotes.filter
        (fun n => n.status = NoteStatus.approved && !n.isDeleted))).drop offset).take limit).map
    db.view

/-- Author columns selected by the review query's left join on `users`;
`none` when the left join finds no user row. -/
structure AuthorView where
  id : String
  username : String
  nickname : String
  avatarUrl : Option String
deriving DecidableEq

/-- One row of `getNotesForReview`'s grouped select. -/
structure NoteWithAuthor where
  id : String
  title : String
  content : String
  status : NoteStatus
  rejectionReason : Option String
  createdAt : Nat
  updatedAt : Nat
  isDeleted : Bool
  author : Option AuthorView
  mediaCount : Nat
deriving DecidableEq

/-- Pagination metadata returned by `getNotesForReview`. -/
structure Pagination where
  page : Nat
  limit : Nat
  total : Nat
  totalPages : Nat
deriving DecidableEq

/-- The filter arguments of `getNotesForReview`. -/
structure ReviewFilter where
  status : Option NoteStatus := none
  page : Nat := 1
  limit : Nat := 10
  search : Option String := none
deriving DecidableEq

/-- Test whether `pat` is a prefix of the character list `hay`. -/
def charsHavePrefix : List Char → List Char → Bool
  | _, [] => true
  | [], _ :: _ => false
  | a :: as, b :: bs => a = b && charsHavePrefix as bs

/-- Substring containment, modelling `LIKE '%pat%'`. -/
def strContainsSub (hay pat : String) : Bool :=
  (List.range (hay.data.length + 1)).any
    (fun i => charsHavePrefix (hay.data.drop i) pat.data)

/-- The WHERE clause of the review queries: `isDeleted = false`, plus
the optional status filter, plus the optional search over the note
title or the joined author's nickname. -/
def reviewWhere (db : DB) (flt : ReviewFilter) (n : NoteRow) : Bool :=
  !n.isDeleted &&
  (match flt.status with
   | some s => n.status = s
   | none => true) &&
  (match flt.search with
   | some q =>
     strContainsSub n.title q ||
     (match db.users.find? (fun u => u.id = n.userId) with
      | some u => strContainsSub u.nickname q
      | none => false)
   | none => true)

/-- Build one grouped result row: the note's columns, the left-joined
author, and `COUNT(note_media.id)` for the note's group. -/
def reviewRow (db : DB) (n : NoteRow) : NoteWithAuthor :=
  { id := n.id, title := n.title, content := n.content, status := n.status,
    rejectionReason := n.rejectionReason, createdAt := n.createdAt,
    updatedAt := n.updatedAt, isDeleted := n.isDeleted,
    author := (db.users.find? (fun u => u.id = n.userId)).map
      (fun u => { id := u.id, username := u.username, nickname := u.nickname,
                  avatarUrl := u.avatarUrl }),
    mediaCount := (db.mediaOf n.id).length }

/-- `getNotesForReview`: filtered notes joined with authors and media
counts, newest first, paginated, plus a parallel COUNT(*) and
`totalPages = ceil(total / limit)`. -/
def getNotesForReview (db : DB) (flt : ReviewFilter) :
    List NoteWithAuthor × Pagination :=
  let offset := (flt.page - 1) * flt.limit
  let filtered := db.travelNotes.filter (reviewWhere db flt)
  let pageRows := ((sortBy byCreatedAtDesc filtered).drop offset).take flt.limit
  let total := filtered.length
  (pageRows.map (reviewRow db),
   { page := flt.page, limit := flt.limit, total := total,
     totalPages := (total + flt.limit - 1) / flt.limit })

/-- The per-row effect of `updateNoteStatus`'s UPDATE statement.  When
rejecting without a supplied reason the `rejectionReason` field of the
SET object is `undefined`, which the ORM omits, leaving the column
unchanged; for any non-rejected status it is set to null. -/
def statusRowUpdate (noteId : String) (status : NoteStatus)
    (rejectionReason : Option String) (now : Nat) (n : NoteRow) : NoteRow :=
  if n.id = noteId then
    { n with status := status,
             rejectionReason :=
               if status = NoteStatus.rejected then
                 (match rejectionReason with
                  | some r => some r
                  | none => n.rejectionReason)
               else none,
             updatedAt := now }
  else n

/-- `updateNoteStatus`: a single UPDATE keyed on the note id, no
existence check, always returns `{ success: true }`. -/
def updateNoteStatus (db : DB) (now : Nat) (noteId : String)
    (status : NoteStatus) (rejectionReason : Option String) : DB × OpResult :=
  ({ db with travelNotes :=
      db.travelNotes.map (statusRowUpdate noteId status rejectionReason now) },
   OpResult.success)

/-- `adminDeleteNote`: sets `isDeleted: true` keyed on the note id, no
existence check, always returns `{ success: true }`. -/
def adminDeleteNote (db : DB) (now : Nat) (noteId : String) : DB × OpResult :=
  let upd := fun (n : NoteRow) =>
    if n.id = noteId then { n with isDeleted := true, updatedAt := now } else n
  ({ db with travelNotes := db.travelNotes.map upd }, OpResult.success)

/-- `getNoteDetails(noteId)`: the note with its full user row and its
media ordered by `asc(noteMedia.order)`; `none` models the thrown
not-found error. -/
def getNoteDetails (db : DB) (noteId : String) :
    Option (NoteRow × List MediaRow × Option UserRow) :=
  (db.travelNotes.find? (fun n => n.id = noteId)).map
    (fun n => (n, sortBy byOrderAsc (db.mediaOf n.id),
               db.users.find? (fun u => u.id = n.userId)))

/-- The authenticated principal a route loader sees (`getLoggedInUser`
result, or an admin-panel user from `requireAdminUser`). -/
structure Principal where
  id : String
  role : Role
deriving DecidableEq

/-- Outcome of the note-detail route loader: thrown `Response` status
or the loader data `{ note, isAuthor }`. -/
inductive LoaderResult
  | thrown (statusCode : Nat)
  | ok (note : NoteWithMedia) (isAuthor : Bool)
deriving DecidableEq

/-- The loader of `routes/_user.note.$id.tsx`: 400 without an id, 404
when the note is missing, 403 when the note is not approved and the
caller is neither its owner nor an admin, otherwise the note. -/
def noteDetailLoader (db : DB) (user : Option Principal)
    (id : Option String) : LoaderResult :=
  match id with
  | none => .thrown 400
  | some i =>
    match getNoteById db i with
    | none => .thrown 404
    | some v =>
      if !(v.note.status = NoteStatus.approved) &&
         (match user with
          | none => true
          | some u => !(u.id = v.note.userId) && !(u.role = Role.admin)) then
        .thrown 403
      else
        .ok v (match user with
               | some u => u.id = v.note.userId
               | none => false)

/-- The loader of the my-notes route (`_user.my-notes.tsx`): fetches
the user's notes via `getUserNotes` and then filters out the
soft-deleted ones in application code. -/
def myNotesLoader (db : DB) (userId : String) : List NoteWithMedia :=
  (getUserNotes db userId).filter (fun v => !v.note.isDeleted)

/-- Append a grouping key unless it is already present (the distinct
keys of SQL GROUP BY, in first-occurrence order). -/
def insertKey (acc : List (Option String)) (l : Option String) :
    List (Option String) :=
  if acc.contains l then acc else acc ++ [l]

/-- The popular-destinations aggregation of the homepage loader:
notes with `status = approved` (the query has no `isDeleted` filter),
grouped by `location`, counted, ordered by count descending, LIMIT 6. -/
def popularDestinations (db : DB) : List (Option String × Nat) :=
  let approved := db.travelNotes.filter (fun n => n.status = NoteStatus.approved)
  let keys := approved.foldl (fun acc n => insertKey acc n.location) []
  let groups := keys.map
    (fun l => (l, (approved.filter (fun n => n.location = l)).length))
  (sortBy (fun a b => b.2 ≤ a.2) groups).take 6

/-- Outcome of the admin review route action: `{ success: true }` or a
json error with an HTTP status. -/
inductive ActionResult
  | success
  | errJson (message : String) (statusCode : Nat)
deriving DecidableEq

/-- JavaScript truthiness of an optional form-data string: absent
(`null`) and the empty string are falsy. -/
def formTruthy : Option String → Bool
  | none => false
  | some s => !(s = "")

/-- The action of the admin review route: validates the note id, then
dispatches on `_action`; `reject` requires a truthy `rejectionReason`
before calling `updateNoteStatus`, and `delete` requires the admin
role before calling `adminDeleteNote`. -/
def adminReviewAction (db : DB) (now : Nat) (user : Principal)
    (act : String) (noteId : Option String)
    (rejectionReason : Option String) : DB × ActionResult :=
  if !(formTruthy noteId) then (db, .errJson "游记ID不能为空" 400)
  else
    let nid := noteId.getD ""
    if act = "approve" then
      ((updateNoteStatus db now nid NoteStatus.approved none).1, .success)
    else if act = "reject" then
      if !(formTruthy rejectionReason) then
        (db, .errJson "拒绝原因不能为空" 400)
      else
        ((updateNoteStatus db now nid NoteStatus.rejected rejectionReason).1,
         .success)
    else if act = "delete" then
      if !(user.role = Role.admin) then (db, .errJson "没有权限执行此操作" 403)
      else ((adminDeleteNote db now nid).1, .success)
    else (db, .errJson "未知操作" 400)

/-- A sample owner used by the concrete scenarios. -/
def exUser : UserRow :=
  { id := "u1", username := "alice", nickname := "Alice",
    avatarUrl := none, role := Role.user }

/-- A sample rejected note with a stored rejection reason. -/
def exRejectedNote : NoteRow :=
  { id := "n1", userId := "u1", title := "old title", content := "old content",
    location := some "Paris", status := NoteStatus.rejected,
    rejectionReason := some "blurry photos", isDeleted := false,
    createdAt := 0, updatedAt := 0 }

/-- A database holding the rejected note. -/
def exDB : DB :=
  { users := [exUser], travelNotes := [exRejectedNote], noteMedia := [],
    nextMediaId := 0 }

/-- An owner edit of that note which supplies the empty string as
location (the form posts `location` even when cleared). -/
def exUpdateInput : UpdateNoteInput :=
  { id := "n1", userId := "u1", title := "new title",
    content := "new content", location := some "", media := [] }

/-- The data-model invariant of claim C4: a note's rejection reason is
present exactly when the note is rejected. -/
def reasonMatchesStatus (n : NoteRow) : Prop :=
  n.rejectionReason ≠ none ↔ n.status = NoteStatus.rejected

instance (n : NoteRow) : Decidable (reasonMatchesStatus n) :=
  inferInstanceAs
    (Decidable (n.rejectionReason ≠ none ↔ n.status = NoteStatus.rejected))

/-- A soft-deleted approved note. -/
def exDeletedNote : NoteRow :=
  { id := "n2", userId := "u1", title := "gone", content := "gone",
    location := some "Lhasa", status := NoteStatus.approved,
    rejectionReason := none, isDeleted := true,
    createdAt := 1, updatedAt := 1 }

/-- A database whose only note is soft-deleted. -/
def exDB2 : DB :=
  { users := [exUser], travelNotes := [exDeletedNote], noteMedia := [],
    nextMediaId := 0 }

/-- A live approved note. -/
def exApprovedNote : NoteRow :=
  { id := "n3", userId := "u1", title := "Lijiang", content := "great trip",
    location := some "Lijiang", status := NoteStatus.approved,
    rejectionReason := none, isDeleted := false,
    createdAt := 2, updatedAt := 2 }

/-- A database holding one live approved note. -/
def exDB3 : DB :=
  { users := [exUser], travelNotes := [exApprovedNote], noteMedia := [],
    nextMediaId := 0 }

/-- An empty database whose media serial counter starts at 1. -/
def exDB0 : DB :=
  { users := [exUser], travelNotes := [], noteMedia := [], nextMediaId := 1 }

/-- The media list of the ordering round-trip scenario:
a(order 2), b(order 0), c(order 1). -/
def exMediaABC : List MediaInput :=
  [ { mediaType := MediaType.image, url := "a.jpg", order := some 2 },
    { mediaType := MediaType.image, url := "b.jpg", order := some 0 },
    { mediaType := MediaType.image, url := "c.jpg", order := some 1 } ]

/-- A `createNote` call carrying that media list. -/
def exCreateABC : CreateNoteInput :=
  { userId := "u1", title := "Lijiang", content := "trip notes",
    location := "Lijiang", media := exMediaABC }

/-- The database produced by running that call successfully. -/
def exTripDB : DB :=
  (createNote exDB0 "n1" 0 exCreateABC { noteInsertOk := true, mediaInsertOk := true }).1

/-- The tuple `getNoteDetails` returns for the round-trip scenario:
media sorted ascending by `order`, that is b, c, a. -/
def exTuple : NoteRow × List MediaRow × Option UserRow :=
  (createNoteRow "n1" 0 exCreateABC,
   [ { id := 2, noteId := "n1", mediaType := MediaType.image, url := "b.jpg",
       order := 0, createdAt := 0 },
     { id := 3, noteId := "n1", mediaType := MediaType.image, url := "c.jpg",
       order := 1, createdAt := 0 },
     { id := 1, noteId := "n1", mediaType := MediaType.image, url := "a.jpg",
       order := 2, createdAt := 0 } ],
   some exUser)

/-- An approved but soft-deleted note located in Xinjiang. -/
def exDeletedApproved : NoteRow :=
  { id := "n5", userId := "u1", title := "desert", content := "dunes",
    location := some "Xinjiang", status := NoteStatus.approved,
    rejectionReason := none, isDeleted := true,
    createdAt := 3, updatedAt := 3 }

/-- A database whose only note is approved yet soft-deleted. -/
def exDB8 : DB :=
  { users := [], travelNotes := [exDeletedApproved], noteMedia := [],
    nextMediaId := 0 }

/-- The view returned by a concrete successful `createNote` run. -/
def exCreatedView : NoteWithMedia :=
  ((createNote exDB0 "n7" 0 exCreateABC
      { noteInsertOk := true, mediaInsertOk := true }).2).getD
    (exDB0.view (createNoteRow "n7" 0 exCreateABC))

theorem mem_insertSorted {le : α → α → Bool} {a b : α} {l : List α} :
    b ∈ insertSorted le a l ↔ b = a ∨ b ∈ l := by
  induction l with
  | nil => simp [insertSorted]
  | cons c cs ih =>
    simp only [insertSorted]
    split
    · simp [List.mem_cons]
    · simp only [List.mem_cons, ih]
      tauto

theorem mem_sortBy {le : α → α → Bool} {a : α} {l : List α} :
    a ∈ sortBy le l ↔ a ∈ l := by
  induction l with
  | nil => simp [sortBy]
  | cons b bs ih => simp [sortBy, mem_insertSorted, ih]

theorem pairwise_insertSorted {le : α → α → Bool}
    (htrans : ∀ x y z, le x y = true → le y z = true → le x z = true)
    (htot : ∀ x y, le x y = true ∨ le y x = true)
    {a : α} {l : List α} (h : l.Pairwise (fun x y => le x y = true)) :
    (insertSorted le a l).Pairwise (fun x y => le x y = true) := by
  induction l with
  | nil => simp [insertSorted]
  | cons b bs ih =>
    rw [List.pairwise_cons] at h
    obtain ⟨hb, hbs⟩ := h
    simp only [insertSorted]
    split
    case isTrue hab =>
      rw [List.pairwise_cons]
      refine ⟨?_, ?_⟩
      · intro x hx
        rcases List.mem_cons.mp hx with rfl | hx
        · exact hab
        · exact htrans _ _ _ hab (hb x hx)
      · rw [List.pairwise_cons]
        exact ⟨hb, hbs⟩
    case isFalse hab =>
      rw [List.pairwise_cons]
      refine ⟨?_, ih hbs⟩
      intro x hx
      rcases mem_insertSorted.mp hx with rfl | hx
      · rcases htot b x with hba | hab2
        · exact hba
        · exact absurd hab2 hab
      · exact hb x hx

theorem pairwise_sortBy {le : α → α → Bool}
    (htrans : ∀ x y z, le x y = true → le y z = true → le x z = true)
    (htot : ∀ x y, le x y = true ∨ le y x = true)
    (l : List α) : (sortBy le l).Pairwise (fun x y => le x y = true) := by
  induction l with
  | nil => simp [sortBy]
  | cons a as ih => exact pairwise_insertSorted htrans htot ih

theorem find?_id_of_find?_owner (l : List NoteRow) (i u : String)
    (existing : NoteRow)
    (hp : l.Pairwise (fun a b => a.id ≠ b.id))
    (h : l.find? (fun n => n.id = i && n.userId = u) = some existing) :
    l.find? (fun n => n.id = i) = some existing := by
  have hpe : existing.id = i ∧ existing.userId = u := by
    have := List.find?_some h
    simpa using this
  rw [List.find?_eq_some] at h
  obtain ⟨_, as, bs, hl, hfail⟩ := h
  subst hl
  rw [List.find?_append]
  have hnone : as.find? (fun n => n.id = i) = none := by
    rw [List.find?_eq_none]
    intro x hx
    simp only [decide_eq_true_eq]
    intro hxid
    have hdist : x.id ≠ existing.id := by
      rw [List.pairwise_append] at hp
      exact hp.2.2 x hx existing (List.mem_cons_self _ _)
    exact hdist (hxid.trans hpe.1.symm)
  rw [hnone, List.find?_cons]
  simp [hpe.1]

theorem find?_map_preserving (l : List NoteRow) (i : String)
    (f : NoteRow → NoteRow) (hf : ∀ n, (f n).id = n.id) :
    (l.map f).find? (fun n => n.id = i) =
      (l.find? (fun n => n.id = i)).map f := by
  have hcomp : ((fun n : NoteRow => decide (n.id = i)) ∘ f) =
      (fun n : NoteRow => decide (n.id = i)) := by
    funext n
    simp [Function.comp, hf n]
  rw [List.find?_map, hcomp]

theorem map_id_of_no_match (l : List NoteRow) (f : NoteRow → NoteRow)
    (i : String) (hf : ∀ n, n.id ≠ i → f n = n)
    (hno : ∀ n ∈ l, n.id ≠ i) : l.map f = l := by
  have hfix : ∀ n ∈ l, f n = id n := fun n hn => hf n (hno n hn)
  calc l.map f = l.map id := List.map_congr_left hfix
    _ = l := List.map_id l

/-- Claim C1, counterexample: the owner edit of the rejected note
succeeds and resets the status to pending, but `rejectionReason` stays
`some "blurry photos"` instead of becoming null, and the stored
location stays `some "Paris"` instead of the supplied empty string. -/
theorem C1_counterexample :
    (updateNote exDB 5 exUpdateInput).2 ≠ UpdateResult.err "NOTE_NOT_FOUND" ∧
    ((updateNote exDB 5 exUpdateInput).1.travelNotes.map
      (fun n => (n.status, n.rejectionReason, n.location))) =
      [(NoteStatus.pending, some "blurry photos", some "Paris")] ∧
    some "blurry photos" ≠ (none : Option String) ∧
    some "Paris" ≠ (some "" : Option String) := by
  decide

/-- Claim C1, amended: a successful owner edit overwrites title and
content, resets the status to pending and bumps `updatedAt`; the
location is overwritten only when the supplied value is a non-empty
string (otherwise the previous location is kept), and
`rejectionReason` is left unchanged rather than cleared. -/
theorem C1_update_effect (db : DB) (now : Nat) (input : UpdateNoteInput)
    (existing : NoteRow)
    (huniq : db.travelNotes.Pairwise (fun a b => a.id ≠ b.id))
    (hfind : db.travelNotes.find?
      (fun n => n.id = input.id && n.userId = input.userId) = some existing) :
    (updateNote db now input).2 =
      UpdateResult.ok (getNoteById (updateNote db now input).1 input.id) ∧
    (getNoteById (updateNote db now input).1 input.id).map
      (fun v => (v.note.title, v.note.content, v.note.status,
                 v.note.updatedAt, v.note.rejectionReason, v.note.location)) =
      some (input.title, input.content, NoteStatus.pending, now,
            existing.rejectionReason,
            updateLocationValue input.location existing.location) := by
  have hpe : existing.id = input.id ∧ existing.userId = input.userId := by
    have := List.find?_some hfind
    simpa using this
  have hfid : db.travelNotes.find? (fun n => n.id = input.id) = some existing :=
    find?_id_of_find?_owner db.travelNotes input.id input.userId existing huniq hfind
  have hidpres : ∀ n, (updateNoteRow input
      (updateLocationValue input.location existing.location) now n).id = n.id := by
    intro n
    unfold updateNoteRow
    split <;> rfl
  have hmap : (db.travelNotes.map (updateNoteRow input
      (updateLocationValue input.location existing.location) now)).find?
        (fun n => n.id = input.id) =
      some (updateNoteRow input
        (updateLocationValue input.location existing.location) now existing) := by
    rw [find?_map_preserving _ _ _ hidpres, hfid]
    rfl
  have hrow : updateNoteRow input
      (updateLocationValue input.location existing.location) now existing =
      { existing with
        title := input.title, content := input.content,
        location := updateLocationValue input.location existing.location,
        status := NoteStatus.pending, updatedAt := now } := by
    unfold updateNoteRow
    simp [hpe.1]
  have hstep : ∀ dbM : DB,
      (updateNoteMediaStep dbM input.id now input.media).travelNotes =
        dbM.travelNotes := by
    intro dbM
    unfold updateNoteMediaStep
    split <;> rfl
  have htn : (updateNote db now input).1.travelNotes =
      db.travelNotes.map (updateNoteRow input
        (updateLocationValue input.location existing.location) now) := by
    simp only [updateNote, hfind]
    rw [hstep]
  have hget : getNoteById (updateNote db now input).1 input.id =
      some ((updateNote db now input).1.view (updateNoteRow input
        (updateLocationValue input.location existing.location) now existing)) := by
    simp only [getNoteById]
    rw [htn, hmap]
    rfl
  refine ⟨?_, ?_⟩
  · simp only [updateNote, hfind]
  · rw [hget]
    simp [DB.view, hrow]

/-- Claim C1, witness: the amended statement applied to the concrete
rejected-note scenario. -/
theorem C1_update_effect_witness :
    (updateNote exDB 5 exUpdateInput).2 =
      UpdateResult.ok (getNoteById (updateNote exDB 5 exUpdateInput).1 exUpdateInput.id) ∧
    (getNoteById (updateNote exDB 5 exUpdateInput).1 exUpdateInput.id).map
      (fun v => (v.note.title, v.note.content, v.note.status,
                 v.note.updatedAt, v.note.rejectionReason, v.note.location)) =
      some (exUpdateInput.title, exUpdateInput.content, NoteStatus.pending, 5,
            exRejectedNote.rejectionReason,
            updateLocationValue exUpdateInput.location exRejectedNote.location) :=
  C1_update_effect exDB 5 exUpdateInput exRejectedNote (by decide) (by decide)

/-- Claim C2, counterexample: a soft-deleted note does appear in the
result of `getUserNotes` (the query filters on `userId` only), so the
claim fails for the owner listing operation. -/
theorem C2_counterexample :
    ((getUserNotes exDB2 "u1").map (fun v => v.note.id)) = ["n2"] ∧
    exDeletedNote.isDeleted = true ∧
    exDeletedNote ∈ exDB2.travelNotes ∧
    (getUserNotes exDB2 "u1").map (fun v => v.note.isDeleted) = [true] := by
  decide

/-- Claim C2, amended: soft-deleted notes never appear in
`getPublishedNotes` or `getNotesForReview`; `getUserNotes` itself does
return them, but the my-notes route loader filters them out before
rendering, so they never appear on the owner's listing page. -/
theorem C2_no_deleted_in_listings (db : DB) (limit offset : Nat)
    (flt : ReviewFilter) (userId : String) (v w : NoteWithMedia)
    (r : NoteWithAuthor) :
    (v ∈ getPublishedNotes db limit offset → v.note.isDeleted = false) ∧
    (r ∈ (getNotesForReview db flt).1 → r.isDeleted = false) ∧
    (w ∈ myNotesLoader db userId → w.note.isDeleted = false) := by
  refine ⟨?_, ?_, ?_⟩
  · intro hv
    simp only [getPublishedNotes, List.mem_map] at hv
    obtain ⟨n, hn, rfl⟩ := hv
    have hn2 := List.take_subset _ _ hn
    have hn3 := List.drop_subset _ _ hn2
    rw [mem_sortBy, List.mem_filter] at hn3
    have hpred := hn3.2
    simp only [Bool.and_eq_true, decide_eq_true_eq, Bool.not_eq_true'] at hpred
    simpa [DB.view] using hpred.2
  · intro hr
    simp only [getNotesForReview, List.mem_map] at hr
    obtain ⟨n, hn, rfl⟩ := hr
    have hn2 := List.take_subset _ _ hn
    have hn3 := List.drop_subset _ _ hn2
    rw [mem_sortBy, List.mem_filter] at hn3
    have hpred := hn3.2
    unfold reviewWhere at hpred
    simp only [Bool.and_eq_true, Bool.not_eq_true'] at hpred
    simpa [reviewRow] using hpred.1.1
  · intro hw
    rw [myNotesLoader, List.mem_filter] at hw
    have := hw.2
    simpa [Bool.not_eq_true'] using this

/-- Claim C2, witness: a live approved note is listed by
`getPublishedNotes` and the amended statement reports it as
not deleted. -/
theorem C2_no_deleted_in_listings_witness :
    exDB3.view exApprovedNote ∈ getPublishedNotes exDB3 10 0 ∧
    (exDB3.view exApprovedNote).note.isDeleted = false :=
  ⟨by decide,
   (C2_no_deleted_in_listings exDB3 10 0 {} "u1" (exDB3.view exApprovedNote)
      (exDB3.view exApprovedNote) (reviewRow exDB3 exApprovedNote)).1 (by decide)⟩

/-- Claim C3, counterexample: after creating a note with media
a(order 2), b(order 0), c(order 1), `getNoteById` returns the media in
insertion order a, b, c — not in the ascending-by-order sequence
b, c, a that the claim states. -/
theorem C3_counterexample :
    ((createNote exDB0 "n1" 0 exCreateABC
        { noteInsertOk := true, mediaInsertOk := true }).2.map
      (fun v => v.media.map (fun m => m.url))) =
      some ["a.jpg", "b.jpg", "c.jpg"] ∧
    some ["a.jpg", "b.jpg", "c.jpg"] ≠ some ["b.jpg", "c.jpg", "a.jpg"] := by
  decide

/-- Claim C3, amended: the ascending-by-order media sequence is
returned by `getNoteDetails` (whose query orders by `asc(order)`), not
by `getNoteById`: every `getNoteDetails` result has its media sorted
ascending by `order` and containing exactly the note's media rows, and
for the concrete a(2), b(0), c(1) round trip it returns b, c, a. -/
theorem C3_order_round_trip :
    (∀ (db : DB) (noteId : String)
       (nmu : NoteRow × List MediaRow × Option UserRow),
      getNoteDetails db noteId = some nmu →
      nmu.2.1.Pairwise (fun a b => a.order ≤ b.order) ∧
      ∀ m : MediaRow, (m ∈ nmu.2.1 ↔ m ∈ db.mediaOf nmu.1.id)) ∧
    ((getNoteDetails exTripDB "n1").map
      (fun t => t.2.1.map (fun m => m.url))) =
      some ["b.jpg", "c.jpg", "a.jpg"] := by
  refine ⟨?_, by decide⟩
  intro db noteId nmu h
  simp only [getNoteDetails, Option.map_eq_some'] at h
  obtain ⟨n, hfind, rfl⟩ := h
  refine ⟨?_, ?_⟩
  · have hs := @pairwise_sortBy MediaRow byOrderAsc
      (fun x y z hxy hyz => by
        simp only [byOrderAsc, decide_eq_true_eq] at hxy hyz ⊢
        exact le_trans hxy hyz)
      (fun x y => by
        simp only [byOrderAsc, decide_eq_true_eq]
        exact Nat.le_total x.order y.order)
      (db.mediaOf n.id)
    exact hs.imp (fun hxy => by
      simpa [byOrderAsc, decide_eq_true_eq] using hxy)
  · intro m
    exact mem_sortBy

/-- Claim C3, witness: the amended statement applied to the concrete
round-trip database. -/
theorem C3_order_round_trip_witness :
    exTuple.2.1.Pairwise (fun a b => a.order ≤ b.order) :=
  (C3_order_round_trip.1 exTripDB "n1" exTuple (by decide)).1

theorem createNote_travelNotes (db : DB) (nid : String) (now : Nat)
    (inp : CreateNoteInput) (orc : InsertOracle) :
    (createNote db nid now inp orc).1.travelNotes = db.travelNotes ∨
    (createNote db nid now inp orc).1.travelNotes =
      db.travelNotes ++ [createNoteRow nid now inp] := by
  unfold createNote
  split
  · exact Or.inl rfl
  · dsimp only
    split
    · split
      · exact Or.inr rfl
      · exact Or.inr rfl
    · exact Or.inr rfl

/-- Claim C4, counterexample: the invariant holds on the initial
database, the owner edit succeeds, and the invariant is violated
afterwards — the edited note is pending yet keeps its rejection
reason. -/
theorem C4_counterexample :
    (∀ n ∈ exDB.travelNotes, reasonMatchesStatus n) ∧
    (updateNote exDB 5 exUpdateInput).2 ≠ UpdateResult.err "NOTE_NOT_FOUND" ∧
    ¬ (∀ n ∈ (updateNote exDB 5 exUpdateInput).1.travelNotes,
        reasonMatchesStatus n) := by
  decide

/-- Claim C4, amended: the invariant is established by `createNote` and
preserved by `updateNoteStatus` (whenever a rejection carries a reason,
as the admin route guarantees), by the owner soft delete and by the
admin soft delete — but it is not preserved by `updateNote`, which
resets the status to pending while leaving `rejectionReason`
unchanged. -/
theorem C4_reason_invariant (db : DB) (nid : String) (now : Nat)
    (inp : CreateNoteInput) (orc : InsertOracle) (noteId : String)
    (st : NoteStatus) (rsn : Option String) (i u : String)
    (hdb : ∀ n ∈ db.travelNotes, reasonMatchesStatus n)
    (hrsn : st = NoteStatus.rejected → rsn ≠ none) :
    (∀ n ∈ (createNote db nid now inp orc).1.travelNotes,
      reasonMatchesStatus n) ∧
    (∀ n ∈ (updateNoteStatus db now noteId st rsn).1.travelNotes,
      reasonMatchesStatus n) ∧
    (∀ n ∈ (deleteNote db i u).1.travelNotes, reasonMatchesStatus n) ∧
    (∀ n ∈ (adminDeleteNote db now noteId).1.travelNotes,
      reasonMatchesStatus n) ∧
    ¬ (∀ (dbp : DB) (nowp : Nat) (input : UpdateNoteInput),
        (∀ n ∈ dbp.travelNotes, reasonMatchesStatus n) →
        ∀ n ∈ (updateNote dbp nowp input).1.travelNotes,
          reasonMatchesStatus n) := by
  refine ⟨?_, ?_, ?_, ?_, ?_⟩
  · intro n hn
    rcases createNote_travelNotes db nid now inp orc with h | h
    · rw [h] at hn
      exact hdb n hn
    · rw [h] at hn
      rcases List.mem_append.mp hn with hn | hn
      · exact hdb n hn
      · rcases List.mem_singleton.mp hn with rfl
        simp [reasonMatchesStatus, createNoteRow]
  · intro n hn
    simp only [updateNoteStatus] at hn
    rw [List.mem_map] at hn
    obtain ⟨m, hm, rfl⟩ := hn
    unfold statusRowUpdate
    split
    · by_cases hst : st = NoteStatus.rejected
      · subst hst
        rcases hrsnval : rsn with _ | r
        · exact absurd hrsnval (hrsn rfl)
        · simp [reasonMatchesStatus]
      · simp [reasonMatchesStatus, hst]
    · exact hdb m hm
  · intro n hn
    unfold deleteNote at hn
    rcases hcase : db.travelNotes.find? (fun x => x.id = i && x.userId = u)
      with _ | ex
    · rw [hcase] at hn
      exact hdb n hn
    · rw [hcase] at hn
      dsimp only at hn
      rw [List.mem_map] at hn
      obtain ⟨m, hm, rfl⟩ := hn
      have hm' := hdb m hm
      split
      · simpa [reasonMatchesStatus] using hm'
      · exact hm'
  · intro n hn
    simp only [adminDeleteNote] at hn
    rw [List.mem_map] at hn
    obtain ⟨m, hm, rfl⟩ := hn
    have hm' := hdb m hm
    split
    · simpa [reasonMatchesStatus] using hm'
    · exact hm'
  · intro hcontra
    have hbad := hcontra exDB 5 exUpdateInput (by decide)
    revert hbad
    decide

/-- Claim C4, witness: the amended statement applied concretely — the
note row inserted by `createNote` satisfies the invariant. -/
theorem C4_reason_invariant_witness :
    reasonMatchesStatus (createNoteRow "n9" 7 exCreateABC) :=
  (C4_reason_invariant exDB "n9" 7 exCreateABC
      { noteInsertOk := true, mediaInsertOk := true }
      "n1" NoteStatus.approved none "n1" "u1" (by decide) (by decide)).1
    (createNoteRow "n9" 7 exCreateABC) (by decide)

/-- Claim C5: rejecting through the admin review action without a
reason (absent or empty) returns the validation error and leaves the
database unchanged; rejecting with a non-empty reason succeeds and the
reason is persisted verbatim, retrievable through `getNoteById`. -/
theorem C5_reject_requires_reason (db : DB) (now : Nat) (user : Principal)
    (nid : String) (note : NoteRow) (r : String)
    (hnid : nid ≠ "")
    (hr : r ≠ "")
    (hfind : db.travelNotes.find? (fun n => n.id = nid) = some note) :
    (adminReviewAction db now user "reject" (some nid) none).1 = db ∧
    (adminReviewAction db now user "reject" (some nid) none).2 =
      ActionResult.errJson "拒绝原因不能为空" 400 ∧
    (adminReviewAction db now user "reject" (some nid) (some "")).1 = db ∧
    (adminReviewAction db now user "reject" (some nid) (some r)).2 =
      ActionResult.success ∧
    (getNoteById
        (adminReviewAction db now user "reject" (some nid) (some r)).1
        nid).map (fun v => (v.note.status, v.note.rejectionReason)) =
      some (NoteStatus.rejected, some r) := by
  have h1 : adminReviewAction db now user "reject" (some nid) none =
      (db, ActionResult.errJson "拒绝原因不能为空" 400) := by
    simp [adminReviewAction, formTruthy, hnid]
  have h2 : adminReviewAction db now user "reject" (some nid) (some "") =
      (db, ActionResult.errJson "拒绝原因不能为空" 400) := by
    simp [adminReviewAction, formTruthy, hnid]
  have h3 : adminReviewAction db now user "reject" (some nid) (some r) =
      ((updateNoteStatus db now nid NoteStatus.rejected (some r)).1,
       ActionResult.success) := by
    simp [adminReviewAction, formTruthy, hnid, hr]
  have hid : note.id = nid := by
    have := List.find?_some hfind
    simpa using this
  have hidpres : ∀ n,
      (statusRowUpdate nid NoteStatus.rejected (some r) now n).id = n.id := by
    intro n
    unfold statusRowUpdate
    split <;> rfl
  have hrow : statusRowUpdate nid NoteStatus.rejected (some r) now note =
      { note with
        status := NoteStatus.rejected, rejectionReason := some r,
        updatedAt := now } := by
    unfold statusRowUpdate
    simp [hid]
  have hmap : (updateNoteStatus db now nid NoteStatus.rejected (some r)).1.travelNotes.find?
      (fun n => n.id = nid) =
      some (statusRowUpdate nid NoteStatus.rejected (some r) now note) := by
    simp only [updateNoteStatus]
    rw [find?_map_preserving _ _ _ hidpres, hfind]
    rfl
  refine ⟨by rw [h1], by rw [h1], by rw [h2], by rw [h3], ?_⟩
  rw [h3]
  simp only [getNoteById, hmap, Option.map_some', Option.map_map]
  simp [DB.view, hrow]

/-- Claim C5, witness: the statement applied to the concrete database
holding note n1, with reason string given verbatim. -/
theorem C5_reject_requires_reason_witness :
    (adminReviewAction exDB 9 { id := "a1", role := Role.auditor } "reject"
        (some "n1") none).1 = exDB ∧
    (adminReviewAction exDB 9 { id := "a1", role := Role.auditor } "reject"
        (some "n1") none).2 = ActionResult.errJson "拒绝原因不能为空" 400 ∧
    (adminReviewAction exDB 9 { id := "a1", role := Role.auditor } "reject"
        (some "n1") (some "")).1 = exDB ∧
    (adminReviewAction exDB 9 { id := "a1", role := Role.auditor } "reject"
        (some "n1") (some "needs detail")).2 = ActionResult.success ∧
    (getNoteById
        (adminReviewAction exDB 9 { id := "a1", role := Role.auditor } "reject"
          (some "n1") (some "needs detail")).1
        "n1").map (fun v => (v.note.status, v.note.rejectionReason)) =
      some (NoteStatus.rejected, some "needs detail") :=
  C5_reject_requires_reason exDB 9 { id := "a1", role := Role.auditor }
    "n1" exRejectedNote "needs detail" (by decide) (by decide) (by decide)

/-- Claim C6: fetching a non-approved note through the note-detail
loader fails with the 403 response for an anonymous caller and for any
principal who is neither the owner nor an admin, while the owner and
any admin succeed. -/
theorem C6_visibility (db : DB) (i : String) (v : NoteWithMedia)
    (p : Principal)
    (hget : getNoteById db i = some v)
    (hst : v.note.status ≠ NoteStatus.approved) :
    noteDetailLoader db none (some i) = LoaderResult.thrown 403 ∧
    (p.id ≠ v.note.userId → p.role ≠ Role.admin →
      noteDetailLoader db (some p) (some i) = LoaderResult.thrown 403) ∧
    (p.id = v.note.userId →
      noteDetailLoader db (some p) (some i) = LoaderResult.ok v true) ∧
    (p.role = Role.admin →
      noteDetailLoader db (some p) (some i) =
        LoaderResult.ok v (decide (p.id = v.note.userId))) := by
  refine ⟨?_, ?_, ?_, ?_⟩
  · simp [noteDetailLoader, hget, hst]
  · intro hnid hnrole
    simp [noteDetailLoader, hget, hst, hnid, hnrole]
  · intro hown
    simp [noteDetailLoader, hget, hown]
  · intro hrole
    simp [noteDetailLoader, hget, hrole]

/-- Claim C6, witness: the four cases applied to the concrete database
holding the rejected (hence non-approved) note n1 owned by u1. -/
theorem C6_visibility_witness :
    noteDetailLoader exDB none (some "n1") = LoaderResult.thrown 403 ∧
    noteDetailLoader exDB (some { id := "u2", role := Role.user })
      (some "n1") = LoaderResult.thrown 403 ∧
    noteDetailLoader exDB (some { id := "u1", role := Role.user })
      (some "n1") = LoaderResult.ok (exDB.view exRejectedNote) true ∧
    noteDetailLoader exDB (some { id := "a9", role := Role.admin })
      (some "n1") =
      LoaderResult.ok (exDB.view exRejectedNote)
        (decide ("a9" = (exDB.view exRejectedNote).note.userId)) :=
  ⟨(C6_visibility exDB "n1" (exDB.view exRejectedNote)
      { id := "u2", role := Role.user } (by decide) (by decide)).1,
   (C6_visibility exDB "n1" (exDB.view exRejectedNote)
      { id := "u2", role := Role.user } (by decide) (by decide)).2.1
     (by decide) (by decide),
   (C6_visibility exDB "n1" (exDB.view exRejectedNote)
      { id := "u1", role := Role.user } (by decide) (by decide)).2.2.1
     (by decide),
   (C6_visibility exDB "n1" (exDB.view exRejectedNote)
      { id := "a9", role := Role.admin } (by decide) (by decide)).2.2.2
     (by decide)⟩

/-- Claim C7: whenever `createNote` returns a note (success path), that
note's status is pending — the argument object has no status field, so
no caller-supplied status can change this — and its rejection reason is
null.  Freshness of the new id is assumed (UUID primary key). -/
theorem C7_created_pending (db : DB) (nid : String) (now : Nat)
    (inp : CreateNoteInput) (orc : InsertOracle) (v : NoteWithMedia)
    (hfresh : ∀ n ∈ db.travelNotes, n.id ≠ nid)
    (h : (createNote db nid now inp orc).2 = some v) :
    v.note.status = NoteStatus.pending ∧ v.note.rejectionReason = none := by
  have hfnone : db.travelNotes.find? (fun n => n.id = nid) = none := by
    rw [List.find?_eq_none]
    intro x hx
    simpa using hfresh x hx
  have hfind : ∀ db' : DB,
      db'.travelNotes = db.travelNotes ++ [createNoteRow nid now inp] →
      getNoteById db' nid = some (db'.view (createNoteRow nid now inp)) := by
    intro db' hdb'
    simp only [getNoteById, hdb', List.find?_append, hfnone, Option.none_or,
      List.find?_cons]
    simp [createNoteRow]
  by_cases hok : orc.noteInsertOk
  · simp only [createNote, hok, Bool.not_true, Bool.false_eq_true, if_false] at h
    by_cases hm : inp.media.length > 0
    · simp only [hm, if_true] at h
      by_cases hmo : orc.mediaInsertOk
      · simp only [hmo, Bool.not_true, Bool.false_eq_true, if_false] at h
        rw [hfind _ rfl] at h
        have hv := Option.some.inj h
        rw [← hv]
        simp [DB.view, createNoteRow]
      · simp only [hmo] at h
        simp at h
    · simp only [hm, if_false] at h
      rw [hfind _ rfl] at h
      have hv := Option.some.inj h
      rw [← hv]
      simp [DB.view, createNoteRow]
  · simp only [createNote, hok] at h
    simp at h

/-- Claim C7, witness: the concrete successful run yields a pending
note with no rejection reason. -/
theorem C7_created_pending_witness :
    exCreatedView.note.status = NoteStatus.pending ∧
    exCreatedView.note.rejectionReason = none :=
  C7_created_pending exDB0 "n7" 0 exCreateABC
    { noteInsertOk := true, mediaInsertOk := true } exCreatedView
    (by decide) (by decide)

theorem mem_foldl_insertKey (l : List NoteRow) (acc : List (Option String))
    (x : Option String)
    (hx : x ∈ l.foldl (fun acc n => insertKey acc n.location) acc) :
    x ∈ acc ∨ ∃ n ∈ l, n.location = x := by
  induction l generalizing acc with
  | nil => exact Or.inl hx
  | cons a as ih =>
    simp only [List.foldl_cons] at hx
    rcases ih _ hx with h | h
    · unfold insertKey at h
      split at h
      · exact Or.inl h
      · rcases List.mem_append.mp h with h | h
        · exact Or.inl h
        · rcases List.mem_singleton.mp h with rfl
          exact Or.inr ⟨a, List.mem_cons_self _ _, rfl⟩
    · obtain ⟨n, hn, hl⟩ := h
      exact Or.inr ⟨n, List.mem_cons_of_mem _ hn, hl⟩

/-- Claim C8, counterexample: the popular-destinations query filters on
`status = approved` only, so a soft-deleted approved note is counted —
the database whose single note is deleted yields a non-empty
aggregation, where the claim predicts an empty one. -/
theorem C8_counterexample :
    popularDestinations exDB8 = [(some "Xinjiang", 1)] ∧
    (∀ n ∈ exDB8.travelNotes, n.isDeleted = true) := by
  decide

/-- Claim C8, amended: the aggregation considers exactly the notes with
`status = approved` (soft-deleted ones included), groups them by
location, counts per group, orders groups descending by count and
returns at most the top 6 groups. -/
theorem C8_popular_aggregation (db : DB) (loc : Option String) (c : Nat) :
    (popularDestinations db).length ≤ 6 ∧
    (popularDestinations db).Pairwise (fun a b => b.2 ≤ a.2) ∧
    ((loc, c) ∈ popularDestinations db →
      c = ((db.travelNotes.filter
          (fun n => n.status = NoteStatus.approved)).filter
        (fun n => n.location = loc)).length ∧
      ∃ n ∈ db.travelNotes,
        n.status = NoteStatus.approved ∧ n.location = loc) := by
  refine ⟨?_, ?_, ?_⟩
  · exact List.length_take_le _ _
  · have hs := @pairwise_sortBy (Option String × Nat) (fun a b => b.2 ≤ a.2)
      (fun x y z hxy hyz => by
        simp only [decide_eq_true_eq] at hxy hyz ⊢
        exact le_trans hyz hxy)
      (fun x y => by
        simp only [decide_eq_true_eq]
        exact Nat.le_total y.2 x.2)
      ((db.travelNotes.filter (fun n => n.status = NoteStatus.approved)).foldl
          (fun acc n => insertKey acc n.location) [] |>.map
        (fun l => (l, ((db.travelNotes.filter
            (fun n => n.status = NoteStatus.approved)).filter
          (fun n => n.location = l)).length)))
    have hsub : (popularDestinations db).Sublist
        (sortBy (fun a b => b.2 ≤ a.2)
          ((db.travelNotes.filter (fun n => n.status = NoteStatus.approved)).foldl
              (fun acc n => insertKey acc n.location) [] |>.map
            (fun l => (l, ((db.travelNotes.filter
                (fun n => n.status = NoteStatus.approved)).filter
              (fun n => n.location = l)).length)))) := by
      simp only [popularDestinations]
      exact List.take_sublist _ _
    exact (List.Pairwise.sublist hsub hs).imp (fun hxy => by
      simpa using hxy)
  · intro hmem
    simp only [popularDestinations] at hmem
    have hmem2 := List.take_subset _ _ hmem
    rw [mem_sortBy, List.mem_map] at hmem2
    obtain ⟨k, hk, heq⟩ := hmem2
    have hkl : k = loc := congrArg Prod.fst heq
    subst hkl
    have hc : c = ((db.travelNotes.filter
        (fun n => n.status = NoteStatus.approved)).filter
      (fun n => n.location = k)).length := (congrArg Prod.snd heq).symm
    refine ⟨hc, ?_⟩
    rcases mem_foldl_insertKey _ _ _ hk with h | h
    · simp at h
    · obtain ⟨n, hn, hl⟩ := h
      rw [List.mem_filter] at hn
      refine ⟨n, hn.1, ?_, hl⟩
      simpa using hn.2

/-- Claim C8, witness: the amended statement applied to the database
whose single approved (soft-deleted) note is in Xinjiang. -/
theorem C8_popular_aggregation_witness :
    1 = ((exDB8.travelNotes.filter
        (fun n => n.status = NoteStatus.approved)).filter
      (fun n => n.location = some "Xinjiang")).length :=
  ((C8_popular_aggregation exDB8 (some "Xinjiang") 1).2.2 (by decide)).1

/-- Claim C9, counterexample: with the note insert committing and the
media insert failing, `createNote` leaves the note row committed with
zero of its three media rows and returns null — neither everything nor
nothing was committed. -/
theorem C9_counterexample :
    (createNote exDB0 "n1" 0 exCreateABC
      { noteInsertOk := true, mediaInsertOk := false }).2 = none ∧
    (createNote exDB0 "n1" 0 exCreateABC
      { noteInsertOk := true, mediaInsertOk := false }).1.travelNotes.length = 1 ∧
    (createNote exDB0 "n1" 0 exCreateABC
      { noteInsertOk := true, mediaInsertOk := false }).1.noteMedia = [] ∧
    exCreateABC.media ≠ [] := by
  decide

/-- Claim C9, amended: `createNote` runs its two inserts as separate
non-transactional statements: when both succeed, exactly one note row
and one media row per entry are committed; when the media insert fails
after the note insert, the note row stays committed without any media
rows and the caller receives null (the error is caught, not
re-thrown). -/
theorem C9_create_not_atomic (db : DB) (nid : String) (now : Nat)
    (inp : CreateNoteInput) :
    ((createNote db nid now inp
        { noteInsertOk := true, mediaInsertOk := true }).1.travelNotes =
        db.travelNotes ++ [createNoteRow nid now inp] ∧
      (createNote db nid now inp
        { noteInsertOk := true, mediaInsertOk := true }).1.noteMedia =
        db.noteMedia ++ mediaRowsFor nid db.nextMediaId now inp.media ∧
      (mediaRowsFor nid db.nextMediaId now inp.media).length =
        inp.media.length) ∧
    (inp.media ≠ [] →
      (createNote db nid now inp
        { noteInsertOk := true, mediaInsertOk := false }).1.travelNotes =
        db.travelNotes ++ [createNoteRow nid now inp] ∧
      (createNote db nid now inp
        { noteInsertOk := true, mediaInsertOk := false }).1.noteMedia =
        db.noteMedia ∧
      (createNote db nid now inp
        { noteInsertOk := true, mediaInsertOk := false }).2 = none) := by
  refine ⟨⟨?_, ?_, ?_⟩, ?_⟩
  · by_cases hm : inp.media.length > 0 <;> simp [createNote, hm]
  · by_cases hm : inp.media.length > 0
    · simp [createNote, hm]
    · have hnil : inp.media = [] := by
        rcases hcase : inp.media with _ | ⟨a, as⟩
        · rfl
        · rw [hcase] at hm
          simp at hm
      simp [createNote, hm, hnil, mediaRowsFor]
  · simp [mediaRowsFor]
  · intro hne
    have hm : inp.media.length > 0 := List.length_pos.mpr hne
    refine ⟨?_, ?_, ?_⟩ <;> simp [createNote, hm]

/-- Claim C9, witness: the amended statement's failure clause applied
to the concrete three-media create call. -/
theorem C9_create_not_atomic_witness :
    (createNote exDB0 "n1" 0 exCreateABC
      { noteInsertOk := true, mediaInsertOk := false }).1.noteMedia =
      exDB0.noteMedia ∧
    (createNote exDB0 "n1" 0 exCreateABC
      { noteInsertOk := true, mediaInsertOk := false }).2 = none :=
  ⟨((C9_create_not_atomic exDB0 "n1" 0 exCreateABC).2 (by decide)).2.1,
   ((C9_create_not_atomic exDB0 "n1" 0 exCreateABC).2 (by decide)).2.2⟩

/-- Claim C10: `updateNoteStatus` and `adminDeleteNote` always return
`{ success: true }`, perform no existence check, and on an id with no
matching note leave the database entirely unchanged. -/
theorem C10_admin_ops_unchecked (db : DB) (now : Nat) (nid : String)
    (st : NoteStatus) (rsn : Option String) :
    (updateNoteStatus db now nid st rsn).2 = OpResult.success ∧
    (adminDeleteNote db now nid).2 = OpResult.success ∧
    ((∀ n ∈ db.travelNotes, n.id ≠ nid) →
      (updateNoteStatus db now nid st rsn).1 = db ∧
      (adminDeleteNote db now nid).1 = db) := by
  refine ⟨rfl, rfl, ?_⟩
  intro hno
  constructor
  · have hmap : db.travelNotes.map (statusRowUpdate nid st rsn now) =
        db.travelNotes :=
      map_id_of_no_match _ _ nid
        (fun n hnid => by
          unfold statusRowUpdate
          simp [hnid]) hno
    simp only [updateNoteStatus, hmap]
  · have hmap : db.travelNotes.map
        (fun n => if n.id = nid then { n with isDeleted := true, updatedAt := now } else n) =
        db.travelNotes :=
      map_id_of_no_match _ _ nid (fun n hnid => by simp [hnid]) hno
    simp only [adminDeleteNote, hmap]

/-- Claim C10, witness: the statement applied to an id that matches no
note in the concrete database. -/
theorem C10_admin_ops_unchecked_witness :
    (updateNoteStatus exDB 3 "missing" NoteStatus.approved none).2 =
      OpResult.success ∧
    (updateNoteStatus exDB 3 "missing" NoteStatus.approved none).1 = exDB ∧
    (adminDeleteNote exDB 3 "missing").1 = exDB :=
  ⟨(C10_admin_ops_unchecked exDB 3 "missing" NoteStatus.approved none).1,
   ((C10_admin_ops_unchecked exDB 3 "missing" NoteStatus.approved
       none).2.2 (by decide)).1,
   ((C10_admin_ops_unchecked exDB 3 "missing" NoteStatus.approved
       none).2.2 (by decide)).2⟩
